import Mathlib

/-!
Shallow embedding of the retrieval core of the Bookworm Bot server
(`cohere-serverr/server.js`) together with proofs of the specification
claims about it.

The numeric type of JavaScript (IEEE double) is idealised as the real
numbers for the ranking and algebra claims; a separate model `JSNum`
keeps the IEEE special values (infinities and NaN) for the claim about
degenerate cosine-similarity inputs.  Lists model JavaScript arrays,
`Option` models `null`/absent values, and `Except` models rejected
promises (thrown errors) of the external provider calls.
-/

namespace BookwormServer

/-! ### Data model

`server.js` builds document objects of shape
`{ id, data: { title, snippet } }` in `loadDocuments`, and the
cached corpus holds the same objects extended with an `embedding`
field.  The cache file stores flat records
`{ id, title, snippet, embedding }`. -/

structure DocData where
  title : String
  snippet : String
  deriving Repr, DecidableEq

structure Document where
  id : String
  data : DocData
  deriving Repr, DecidableEq

structure EmbeddedDocument where
  id : String
  data : DocData
  embedding : List ℝ

structure CacheRecord where
  id : String
  title : String
  snippet : String
  embedding : List ℝ

/-! ### Vector math (`cosineSimilarity`, server.js lines 236-241)

JavaScript source:

  const dotProduct = vecA.reduce((sum, a, idx) => sum + a * vecB[idx], 0);
  const magA = Math.sqrt(vecA.reduce((sum, a) => sum + a * a, 0));
  const magB = Math.sqrt(vecB.reduce((sum, b) => sum + b * b, 0));
  return dotProduct / (magA * magB);

`Array.prototype.reduce` with initial value `0` is a left fold.  The
dot product pairs `vecA[idx]` with `vecB[idx]`, which `zipWith`
renders for inputs where `vecA` is not longer than `vecB` (all claims
quantify over equal-length vectors). -/

def dotList (vecA vecB : List ℝ) : ℝ :=
  (List.zipWith (fun a b => a * b) vecA vecB).foldl (fun sum x => sum + x) 0

def sumSquares (vec : List ℝ) : ℝ :=
  (vec.map (fun a => a * a)).foldl (fun sum x => sum + x) 0

noncomputable def cosineSimilarity (vecA vecB : List ℝ) : ℝ :=
  let dotProduct := dotList vecA vecB
  let magA := Real.sqrt (sumSquares vecA)
  let magB := Real.sqrt (sumSquares vecB)
  dotProduct / (magA * magB)

/-! ### Retriever (`getTopKDocuments`, server.js lines 243-251)

JavaScript source:

  const similarities = documents.map(doc => ({
    doc,
    score: cosineSimilarity(queryEmbedding, doc.embedding)
  }));
  similarities.sort((a, b) => b.score - a.score);
  return similarities.slice(0, k).map(item => item.doc);

`Array.prototype.sort` with comparator `(a, b) => b.score - a.score`
is a stable descending-by-score sort (an element `a` may precede `b`
exactly when `b.score ≤ a.score`); `List.mergeSort` with the
corresponding boolean relation is the stable sort of the model.
`slice(0, k)` is `take k`. -/

noncomputable def getTopKDocuments (queryEmbedding : List ℝ)
    (documents : List EmbeddedDocument) (k : ℕ) : List EmbeddedDocument :=
  let similarities := documents.map fun doc =>
    (doc, cosineSimilarity queryEmbedding doc.embedding)
  let sorted := similarities.mergeSort fun a b => decide (b.2 ≤ a.2)
  (sorted.take k).map fun item => item.1

/-- Scores of the listed documents against the query are non-increasing
from head to tail. -/
def ScoresNonIncreasing (queryEmbedding : List ℝ)
    (docs : List EmbeddedDocument) : Prop :=
  docs.Pairwise fun d e =>
    cosineSimilarity queryEmbedding e.embedding ≤
      cosineSimilarity queryEmbedding d.embedding

/-! ### Basic lemmas about the vector math -/

theorem foldl_add_eq_add_sum (l : List ℝ) (x : ℝ) :
    l.foldl (fun sum y => sum + y) x = x + l.sum := by
  induction l generalizing x with
  | nil => simp
  | cons a t ih => simp [List.foldl_cons, ih (x + a)]; ring

theorem dotList_eq_sum (vecA vecB : List ℝ) :
    dotList vecA vecB = (List.zipWith (fun a b => a * b) vecA vecB).sum := by
  simp [dotList, foldl_add_eq_add_sum]

theorem sumSquares_eq_sum (vec : List ℝ) :
    sumSquares vec = (vec.map (fun a => a * a)).sum := by
  simp [sumSquares, foldl_add_eq_add_sum]

theorem sumSquares_nonneg (vec : List ℝ) : 0 ≤ sumSquares vec := by
  rw [sumSquares_eq_sum]
  apply List.sum_nonneg
  intro x hx
  obtain ⟨a, _, rfl⟩ := List.mem_map.mp hx
  exact mul_self_nonneg a

theorem dotList_self (vec : List ℝ) : dotList vec vec = sumSquares vec := by
  rw [dotList_eq_sum, sumSquares_eq_sum]
  congr 1
  induction vec with
  | nil => rfl
  | cons a t ih => simp [List.zipWith_cons_cons, ih]

theorem dotList_comm (vecA vecB : List ℝ) :
    dotList vecA vecB = dotList vecB vecA := by
  rw [dotList_eq_sum, dotList_eq_sum]
  congr 1
  induction vecA generalizing vecB with
  | nil => cases vecB <;> rfl
  | cons a t ih =>
    cases vecB with
    | nil => rfl
    | cons b u => simp [List.zipWith_cons_cons, ih u, mul_comm]

theorem cosineSimilarity_def (vecA vecB : List ℝ) :
    cosineSimilarity vecA vecB =
      dotList vecA vecB /
        (Real.sqrt (sumSquares vecA) * Real.sqrt (sumSquares vecB)) := rfl

/-- Cosine similarity of a vector with itself: the ratio collapses to
`sumSquares vec / sumSquares vec`. -/
theorem cosineSimilarity_self (vec : List ℝ) (h : sumSquares vec ≠ 0) :
    cosineSimilarity vec vec = 1 := by
  rw [cosineSimilarity_def, dotList_self,
    Real.mul_self_sqrt (sumSquares_nonneg vec)]
  exact div_self h

theorem cosineSimilarity_comm (vecA vecB : List ℝ) :
    cosineSimilarity vecA vecB = cosineSimilarity vecB vecA := by
  rw [cosineSimilarity_def, cosineSimilarity_def, dotList_comm, mul_comm]

/-- C7: for every vector with nonzero magnitude, the cosine similarity
with itself is exactly 1 (the real-valued idealisation makes the
floating-point tolerance exact), and cosine similarity of equal-length
vectors is symmetric. -/
theorem claim_cosine_self_one_and_symmetric :
    (∀ v : List ℝ, sumSquares v ≠ 0 → cosineSimilarity v v = 1) ∧
    (∀ a b : List ℝ, a.length = b.length →
      cosineSimilarity a b = cosineSimilarity b a) :=
  ⟨cosineSimilarity_self, fun a b _ => cosineSimilarity_comm a b⟩

/-- Witness for C7 at the concrete vectors `[3, 4]` and `[1, 2]`/`[2, 1]`. -/
theorem claim_cosine_self_one_and_symmetric_witness :
    cosineSimilarity [(3 : ℝ), 4] [(3 : ℝ), 4] = 1 ∧
    cosineSimilarity [(1 : ℝ), 2] [(2 : ℝ), 1] =
      cosineSimilarity [(2 : ℝ), 1] [(1 : ℝ), 2] := by
  constructor
  · apply claim_cosine_self_one_and_symmetric.1
    rw [sumSquares_eq_sum]
    norm_num
  · exact claim_cosine_self_one_and_symmetric.2 _ _ rfl

/-! ### Lemmas about the retriever -/

/-- The comparator of `similarities.sort((a, b) => b.score - a.score)`
as a boolean relation on the scored pairs. -/
noncomputable def scoreDescBefore (a b : EmbeddedDocument × ℝ) : Bool :=
  decide (b.2 ≤ a.2)

theorem scoreDescBefore_trans (a b c : EmbeddedDocument × ℝ)
    (hab : scoreDescBefore a b) (hbc : scoreDescBefore b c) :
    scoreDescBefore a c := by
  simp only [scoreDescBefore, decide_eq_true_eq] at *
  exact le_trans hbc hab

theorem scoreDescBefore_total (a b : EmbeddedDocument × ℝ) :
    scoreDescBefore a b || scoreDescBefore b a := by
  simp only [scoreDescBefore, Bool.or_eq_true, decide_eq_true_eq]
  exact (le_total b.2 a.2)

theorem getTopKDocuments_eq (queryEmbedding : List ℝ)
    (documents : List EmbeddedDocument) (k : ℕ) :
    getTopKDocuments queryEmbedding documents k =
      (((documents.map fun doc =>
          (doc, cosineSimilarity queryEmbedding doc.embedding)).mergeSort
            scoreDescBefore).take k).map (fun item => item.1) := rfl

/-- Every scored pair surviving the sort carries the score of its own
document against the query. -/
theorem mem_sorted_score (queryEmbedding : List ℝ)
    (documents : List EmbeddedDocument)
    (p : EmbeddedDocument × ℝ)
    (hp : p ∈ (documents.map fun doc =>
        (doc, cosineSimilarity queryEmbedding doc.embedding)).mergeSort
          scoreDescBefore) :
    p.2 = cosineSimilarity queryEmbedding p.1.embedding := by
  rw [List.mem_mergeSort] at hp
  obtain ⟨d, _, rfl⟩ := List.mem_map.mp hp
  rfl

theorem getTopKDocuments_length (queryEmbedding : List ℝ)
    (documents : List EmbeddedDocument) (k : ℕ) :
    (getTopKDocuments queryEmbedding documents k).length =
      min k documents.length := by
  rw [getTopKDocuments_eq]
  simp

theorem getTopKDocuments_sorted (queryEmbedding : List ℝ)
    (documents : List EmbeddedDocument) (k : ℕ) :
    ScoresNonIncreasing queryEmbedding
      (getTopKDocuments queryEmbedding documents k) := by
  rw [getTopKDocuments_eq, ScoresNonIncreasing, List.pairwise_map]
  have hsorted :
      ((documents.map fun doc =>
        (doc, cosineSimilarity queryEmbedding doc.embedding)).mergeSort
          scoreDescBefore).Pairwise fun a b => scoreDescBefore a b :=
    List.sorted_mergeSort scoreDescBefore_trans scoreDescBefore_total _
  have htake := hsorted.sublist (List.take_sublist k _)
  refine htake.imp_of_mem ?_
  intro a b ha hb hab
  have ha2 := mem_sorted_score queryEmbedding documents a
    ((List.take_sublist k _).subset ha)
  have hb2 := mem_sorted_score queryEmbedding documents b
    ((List.take_sublist k _).subset hb)
  simp only [scoreDescBefore, decide_eq_true_eq] at hab
  rw [← ha2, ← hb2]
  exact hab

/-- C1: the retriever returns at most `min k (corpus size)` documents
and the returned sequence is ordered by non-increasing
cosine-similarity score against the query vector. -/
theorem claim_topK_length_and_sorted (queryEmbedding : List ℝ)
    (documents : List EmbeddedDocument) (k : ℕ) :
    (getTopKDocuments queryEmbedding documents k).length ≤
        min k documents.length ∧
      ScoresNonIncreasing queryEmbedding
        (getTopKDocuments queryEmbedding documents k) :=
  ⟨le_of_eq (getTopKDocuments_length queryEmbedding documents k),
    getTopKDocuments_sorted queryEmbedding documents k⟩

/-- C2: with `k` at least the corpus size the retriever returns every
document exactly once (a permutation of the corpus), still ordered by
non-increasing score. -/
theorem claim_topK_perm_of_k_ge (queryEmbedding : List ℝ)
    (documents : List EmbeddedDocument) (k : ℕ)
    (hk : documents.length ≤ k) :
    (getTopKDocuments queryEmbedding documents k).Perm documents ∧
      ScoresNonIncreasing queryEmbedding
        (getTopKDocuments queryEmbedding documents k) := by
  refine ⟨?_, getTopKDocuments_sorted queryEmbedding documents k⟩
  rw [getTopKDocuments_eq]
  have hlen : ((documents.map fun doc =>
      (doc, cosineSimilarity queryEmbedding doc.embedding)).mergeSort
        scoreDescBefore).length ≤ k := by
    simpa using hk
  rw [List.take_of_length_le hlen]
  have hperm := (List.mergeSort_perm (documents.map fun doc =>
      (doc, cosineSimilarity queryEmbedding doc.embedding)) scoreDescBefore).map
    fun item => item.1
  refine hperm.trans ?_
  simp [Function.comp_def]

/-- Concrete embedded document used by the closed witness statements. -/
def sampleDoc : EmbeddedDocument :=
  { id := "pride_prejudice_analysis",
    data := { title := "Pride Prejudice Analysis", snippet := "body" },
    embedding := [1] }

/-- Witness for C2 at a one-document corpus with `k = 1`. -/
theorem claim_topK_perm_of_k_ge_witness :
    (getTopKDocuments [(1 : ℝ)] [sampleDoc] 1).Perm [sampleDoc] ∧
      ScoresNonIncreasing [(1 : ℝ)]
        (getTopKDocuments [(1 : ℝ)] [sampleDoc] 1) :=
  claim_topK_perm_of_k_ge [(1 : ℝ)] [sampleDoc] 1 (by decide)

/-- C10: every document the retriever returns is drawn from the corpus,
from pairwise-distinct corpus positions (the result is a sub-permutation
of the corpus, so no document is fabricated and none is taken more often
than the corpus holds it), and an empty corpus yields an empty result.
The corpus itself cannot change: in the source, `map`, `slice` and the
final `map` allocate fresh arrays and `sort` mutates only the fresh
`similarities` array, which the purely functional model reflects. -/
theorem claim_topK_subcorpus (queryEmbedding : List ℝ)
    (documents : List EmbeddedDocument) (k : ℕ) :
    (getTopKDocuments queryEmbedding documents k).Subperm documents ∧
      (∀ d ∈ getTopKDocuments queryEmbedding documents k, d ∈ documents) ∧
      (documents = [] → getTopKDocuments queryEmbedding documents k = []) := by
  have hsub : (getTopKDocuments queryEmbedding documents k).Subperm documents := by
    rw [getTopKDocuments_eq]
    have h1 : List.Sublist
        ((((documents.map fun doc =>
          (doc, cosineSimilarity queryEmbedding doc.embedding)).mergeSort
            scoreDescBefore).take k).map (fun item => item.1))
        (((documents.map fun doc =>
          (doc, cosineSimilarity queryEmbedding doc.embedding)).mergeSort
            scoreDescBefore).map (fun item => item.1)) :=
      (List.take_sublist k _).map _
    have h2 : ((documents.map fun doc =>
        (doc, cosineSimilarity queryEmbedding doc.embedding)).mergeSort
          scoreDescBefore).map (fun item => item.1) |>.Perm documents := by
      refine ((List.mergeSort_perm _ scoreDescBefore).map
        fun item => item.1).trans ?_
      simp [Function.comp_def]
    exact h1.subperm.trans h2.subperm
  refine ⟨hsub, fun d hd => hsub.subset hd, fun hempty => ?_⟩
  subst hempty
  rw [getTopKDocuments_eq]
  simp

/-- Witness for C10 on the empty corpus with `k = 0`. -/
theorem claim_topK_subcorpus_witness :
    (getTopKDocuments [(1 : ℝ)] [] 0).Subperm [] ∧
      (∀ d ∈ getTopKDocuments [(1 : ℝ)] [] 0, d ∈ ([] : List EmbeddedDocument)) ∧
      (([] : List EmbeddedDocument) = [] → getTopKDocuments [(1 : ℝ)] [] 0 = []) :=
  claim_topK_subcorpus [(1 : ℝ)] [] 0

/-! ### Embedding cache (`saveEmbeddingsToFile` lines 315-325,
`loadEmbeddingsFromFile` lines 327-341)

The cache file holds the JSON serialisation of the flat record list
built by `saveEmbeddingsToFile`.  JSON round-trips these records
exactly (field names, strings, and numbers survive
`JSON.stringify`/`JSON.parse`), so the model works at the level of the
parsed record list; an `Option` input to the loader models the catch
branch for a missing or unparsable file, which returns `null`. -/

def saveEmbeddingsToFile (documents : List EmbeddedDocument) : List CacheRecord :=
  documents.map fun doc =>
    { id := doc.id
      title := doc.data.title
      snippet := doc.data.snippet
      embedding := doc.embedding }

def loadEmbeddingsFromFile (file : Option (List CacheRecord)) :
    Option (List EmbeddedDocument) :=
  file.map fun embeddingsData =>
    embeddingsData.map fun item =>
      { id := item.id
        data := { title := item.title, snippet := item.snippet }
        embedding := item.embedding }

/-- C3: saving a corpus and reloading the resulting cache file yields
the same documents — identical id, title, snippet and embedding —
in the same order. -/
theorem claim_cache_roundtrip (documents : List EmbeddedDocument) :
    loadEmbeddingsFromFile (some (saveEmbeddingsToFile documents)) =
      some documents := by
  unfold loadEmbeddingsFromFile saveEmbeddingsToFile
  simp only [Option.map_some', List.map_map]
  congr 1
  induction documents with
  | nil => rfl
  | cons d t ih => simp [Function.comp_def]

/-! ### Document store (`loadDocuments`, server.js lines 260-292)

JavaScript source of the loop body, for each `file` of the path list:

  try {
    const content = await fs.readFile(file, "utf-8");
    const filename = file.split("/").pop().replace(/\.(md|txt)$/i, "");
    const cleanTitle = filename.replace(/_/g, " ")
                               .replace(/\b\w/g, l => l.toUpperCase());
    documents.push({ id: filename,
                    data: { title: cleanTitle, snippet: content.trim() } });
  } catch (err) { console.error(...); }

The file system is modelled as a function from path to `Option String`
(`none` is a rejected read, the catch branch: the document is skipped
and the loop continues, so the operation never throws). -/

/-- Strips a final `.md` or `.txt`, case-insensitively, mirroring the
anchored regex `/\.(md|txt)$/i`. -/
def stripDocExt (s : String) : String :=
  if s.toLower.endsWith ".md" then s.dropRight 3
  else if s.toLower.endsWith ".txt" then s.dropRight 4
  else s

/-- JavaScript word character, the `\w` class. -/
def isWordChar (c : Char) : Bool :=
  c.isAlphanum || c == '_'

/-- Uppercases every word character that follows a word boundary,
mirroring `.replace(/\b\w/g, l => l.toUpperCase())`; the boolean
argument records whether the previous character was a word
character. -/
def upperWordStartsAux : Bool → List Char → List Char
  | _, [] => []
  | prevWord, c :: cs =>
    (if isWordChar c && !prevWord then c.toUpper else c) ::
      upperWordStartsAux (isWordChar c) cs

def upperWordStarts (s : String) : String :=
  (upperWordStartsAux false s.toList).asString

def cleanTitleOf (filename : String) : String :=
  upperWordStarts (filename.replace "_" " ")

def mkDocument (file content : String) : Document :=
  let filename := stripDocExt ((file.splitOn "/").getLastD "")
  { id := filename
    data := { title := cleanTitleOf filename, snippet := content.trim } }

/-- The path list hard-coded in the repository; the loader below takes
the list as a parameter, as the claims and spec quantify over input
paths. -/
def defaultFiles : List String :=
  ["./documents/pride_prejudice_analysis.txt"]

def loadDocuments (readFile : String → Option String)
    (files : List String) : List Document :=
  files.foldl
    (fun documents file =>
      match readFile file with
      | some content => documents ++ [mkDocument file content]
      | none => documents)
    []

theorem loadDocuments_foldl (readFile : String → Option String)
    (files : List String) (acc : List Document) :
    files.foldl
        (fun documents file =>
          match readFile file with
          | some content => documents ++ [mkDocument file content]
          | none => documents)
        acc =
      acc ++ files.filterMap fun f => (readFile f).map (mkDocument f) := by
  induction files generalizing acc with
  | nil => simp
  | cons f t ih =>
    cases h : readFile f with
    | none => simp [List.foldl_cons, h, ih, List.filterMap_cons]
    | some content => simp [List.foldl_cons, h, ih, List.filterMap_cons]

theorem loadDocuments_eq_filterMap (readFile : String → Option String)
    (files : List String) :
    loadDocuments readFile files =
      files.filterMap fun f => (readFile f).map (mkDocument f) := by
  simpa using loadDocuments_foldl readFile files []

/-- C4: document loading is a total function (the failing read is
caught, logged and skipped), producing exactly one document per
successfully read path, in path order; in particular, with two readable
paths and one unreadable path it returns exactly two documents. -/
theorem claim_loadDocuments_skips_failures (readFile : String → Option String)
    (files : List String) :
    loadDocuments readFile files =
        ((files.filter fun f => (readFile f).isSome).map
          fun f => mkDocument f ((readFile f).getD "")) ∧
      (loadDocuments readFile files).length =
        (files.filter fun f => (readFile f).isSome).length ∧
      (loadDocuments
          (fun f => if f = "./a.txt" ∨ f = "./b.txt" then some "text" else none)
          ["./a.txt", "./b.txt", "./missing.txt"]).length = 2 := by
  have hmain : loadDocuments readFile files =
      (files.filter fun f => (readFile f).isSome).map
        fun f => mkDocument f ((readFile f).getD "") := by
    rw [loadDocuments_eq_filterMap]
    induction files with
    | nil => rfl
    | cons f t ih =>
      cases h : readFile f with
      | none => simp [List.filterMap_cons, List.filter_cons, h, ih]
      | some content => simp [List.filterMap_cons, List.filter_cons, h, ih]
  refine ⟨hmain, ?_, ?_⟩
  · rw [hmain, List.length_map]
  · rfl

/-! ### The `POST /generate` handler (server.js lines 366-414)

The handler destructures `prompt` from the JSON body (`Option String`:
`none` is an absent field), rejects falsy prompts (absent or the empty
string) with status 400, and otherwise awaits the embedding provider,
the retriever, and the chat provider in order inside one try block
whose catch answers status 500 with the fixed body
`{ error: "Cohere request failed" }`.  The two provider calls are
modelled as oracles returning `Except` (a rejected promise is
`Except.error` carrying the provider-internal message), and the list of
issued calls is returned alongside the reply so that claims about
which providers were invoked are expressible.  Per the provider
contract the embed response carries one embedding per input text;
`embeddings[0]` is `headD []`. -/

structure ChatResponse where
  text : String
  citations : Option (List String)

inductive ProviderCall where
  | embed (texts : List String) (model : String) (inputType : String)
  | chat (message : String) (model : String) (documents : List String)

inductive GenerateBody where
  | ok (text : String) (citations : List String)
  | err (error : String)

structure GenerateReply where
  status : ℕ
  body : GenerateBody

def docText (doc : EmbeddedDocument) : String :=
  doc.data.title ++ ". " ++ doc.data.snippet

noncomputable def generateHandler (prompt : Option String)
    (embedProvider : List String → String → String → Except String (List (List ℝ)))
    (chatProvider : String → String → List String → Except String ChatResponse)
    (corpus : List EmbeddedDocument) : GenerateReply × List ProviderCall :=
  match prompt with
  | none => (⟨400, GenerateBody.err "Prompt is required"⟩, [])
  | some p =>
    if p = "" then (⟨400, GenerateBody.err "Prompt is required"⟩, [])
    else
      match embedProvider [p] "embed-multilingual-v3.0" "search_query" with
      | Except.error _ =>
        (⟨500, GenerateBody.err "Cohere request failed"⟩,
          [ProviderCall.embed [p] "embed-multilingual-v3.0" "search_query"])
      | Except.ok embeddings =>
        let queryEmbedding := embeddings.headD []
        let topDocuments := getTopKDocuments queryEmbedding corpus 5
        let documentTexts := topDocuments.map docText
        match chatProvider p "command-r-plus" documentTexts with
        | Except.error _ =>
          (⟨500, GenerateBody.err "Cohere request failed"⟩,
            [ProviderCall.embed [p] "embed-multilingual-v3.0" "search_query",
              ProviderCall.chat p "command-r-plus" documentTexts])
        | Except.ok response =>
          (⟨200, GenerateBody.ok response.text (response.citations.getD [])⟩,
            [ProviderCall.embed [p] "embed-multilingual-v3.0" "search_query",
              ProviderCall.chat p "command-r-plus" documentTexts])

/-- C5: a missing or empty prompt is answered with status 400 and an
error body, and no provider call is issued. -/
theorem claim_generate_rejects_empty_prompt
    (embedProvider : List String → String → String → Except String (List (List ℝ)))
    (chatProvider : String → String → List String → Except String ChatResponse)
    (corpus : List EmbeddedDocument) (prompt : Option String)
    (h : prompt = none ∨ prompt = some "") :
    (generateHandler prompt embedProvider chatProvider corpus).1.status = 400 ∧
      (∃ msg, (generateHandler prompt embedProvider chatProvider corpus).1.body =
        GenerateBody.err msg) ∧
      (generateHandler prompt embedProvider chatProvider corpus).2 = [] := by
  rcases h with rfl | rfl <;>
    exact ⟨rfl, ⟨"Prompt is required", rfl⟩, rfl⟩

/-- Witness for C5 at the absent prompt. -/
theorem claim_generate_rejects_empty_prompt_witness :
    (generateHandler none (fun _ _ _ => Except.error "boom")
        (fun _ _ _ => Except.error "boom") []).1.status = 400 ∧
      (∃ msg, (generateHandler none (fun _ _ _ => Except.error "boom")
        (fun _ _ _ => Except.error "boom") []).1.body = GenerateBody.err msg) ∧
      (generateHandler none (fun _ _ _ => Except.error "boom")
        (fun _ _ _ => Except.error "boom") []).2 = [] :=
  claim_generate_rejects_empty_prompt _ _ [] none (Or.inl rfl)

/-- C6: with a valid prompt, a failing embedding call or a failing chat
call makes the handler answer status 500 with the fixed body
`error = "Cohere request failed"`; the reply is the same constant for
every provider-internal message `e`, so no provider detail leaks. -/
theorem claim_generate_masks_provider_errors
    (embedProvider : List String → String → String → Except String (List (List ℝ)))
    (chatProvider : String → String → List String → Except String ChatResponse)
    (corpus : List EmbeddedDocument) (p : String) (hp : p ≠ "") :
    ((∃ e, embedProvider [p] "embed-multilingual-v3.0" "search_query" =
        Except.error e) →
      (generateHandler (some p) embedProvider chatProvider corpus).1 =
        ⟨500, GenerateBody.err "Cohere request failed"⟩) ∧
    (∀ embeddings e,
      embedProvider [p] "embed-multilingual-v3.0" "search_query" =
        Except.ok embeddings →
      chatProvider p "command-r-plus"
          ((getTopKDocuments (embeddings.headD []) corpus 5).map docText) =
        Except.error e →
      (generateHandler (some p) embedProvider chatProvider corpus).1 =
        ⟨500, GenerateBody.err "Cohere request failed"⟩) := by
  constructor
  · rintro ⟨e, he⟩
    simp [generateHandler, hp, he]
  · intro embeddings e hok hchat
    have hchat' : chatProvider p "command-r-plus"
        ((getTopKDocuments (embeddings.head?.getD []) corpus 5).map docText) =
        Except.error e := by simpa using hchat
    simp [generateHandler, hp, hok, hchat']

/-- Witness for C6 with a failing embedding provider whose internal
message does not reach the reply. -/
theorem claim_generate_masks_provider_errors_witness :
    ("hi" : String) ≠ "" ∧
      (generateHandler (some "hi") (fun _ _ _ => Except.error "secret detail")
          (fun _ _ _ => Except.error "secret detail") []).1 =
        ⟨500, GenerateBody.err "Cohere request failed"⟩ :=
  ⟨by decide,
    (claim_generate_masks_provider_errors _ _ [] "hi" (by decide)).1
      ⟨"secret detail", rfl⟩⟩

/-! ### JavaScript numbers with IEEE special values

For the claim about degenerate cosine-similarity inputs the real-number
idealisation is too coarse: JavaScript division by zero produces `NaN`
or an infinity, never a junk real.  `JSNum` keeps the special values
`Infinity`, `-Infinity` and `NaN` while idealising finite doubles as
exact reals (no rounding or overflow, and the single `num 0` stands for
IEEE `+0`; `-0` cannot reach the division below because sums of squares
and their square roots are `+0` or positive). -/

inductive JSNum where
  | num : ℝ → JSNum
  | posInf : JSNum
  | negInf : JSNum
  | nan : JSNum

/-- IEEE addition on idealised doubles. -/
def JSNum.add : JSNum → JSNum → JSNum
  | JSNum.nan, _ => JSNum.nan
  | _, JSNum.nan => JSNum.nan
  | JSNum.num x, JSNum.num y => JSNum.num (x + y)
  | JSNum.num _, JSNum.posInf => JSNum.posInf
  | JSNum.num _, JSNum.negInf => JSNum.negInf
  | JSNum.posInf, JSNum.num _ => JSNum.posInf
  | JSNum.negInf, JSNum.num _ => JSNum.negInf
  | JSNum.posInf, JSNum.posInf => JSNum.posInf
  | JSNum.negInf, JSNum.negInf => JSNum.negInf
  | JSNum.posInf, JSNum.negInf => JSNum.nan
  | JSNum.negInf, JSNum.posInf => JSNum.nan

/-- IEEE multiplication on idealised doubles. -/
noncomputable def JSNum.mul : JSNum → JSNum → JSNum
  | JSNum.nan, _ => JSNum.nan
  | _, JSNum.nan => JSNum.nan
  | JSNum.num x, JSNum.num y => JSNum.num (x * y)
  | JSNum.num x, JSNum.posInf =>
    if x = 0 then JSNum.nan else if 0 < x then JSNum.posInf else JSNum.negInf
  | JSNum.num x, JSNum.negInf =>
    if x = 0 then JSNum.nan else if 0 < x then JSNum.negInf else JSNum.posInf
  | JSNum.posInf, JSNum.num y =>
    if y = 0 then JSNum.nan else if 0 < y then JSNum.posInf else JSNum.negInf
  | JSNum.negInf, JSNum.num y =>
    if y = 0 then JSNum.nan else if 0 < y then JSNum.negInf else JSNum.posInf
  | JSNum.posInf, JSNum.posInf => JSNum.posInf
  | JSNum.posInf, JSNum.negInf => JSNum.negInf
  | JSNum.negInf, JSNum.posInf => JSNum.negInf
  | JSNum.negInf, JSNum.negInf => JSNum.posInf

/-- IEEE division on idealised doubles (zero denominators follow the
`+0` sign convention explained above). -/
noncomputable def JSNum.div : JSNum → JSNum → JSNum
  | JSNum.nan, _ => JSNum.nan
  | _, JSNum.nan => JSNum.nan
  | JSNum.num x, JSNum.num y =>
    if y = 0 then
      (if x = 0 then JSNum.nan else if 0 < x then JSNum.posInf else JSNum.negInf)
    else JSNum.num (x / y)
  | JSNum.num _, JSNum.posInf => JSNum.num 0
  | JSNum.num _, JSNum.negInf => JSNum.num 0
  | JSNum.posInf, JSNum.num y =>
    if 0 ≤ y then JSNum.posInf else JSNum.negInf
  | JSNum.negInf, JSNum.num y =>
    if 0 ≤ y then JSNum.negInf else JSNum.posInf
  | JSNum.posInf, _ => JSNum.nan
  | JSNum.negInf, _ => JSNum.nan

/-- IEEE `Math.sqrt` on idealised doubles. -/
noncomputable def JSNum.sqrt : JSNum → JSNum
  | JSNum.nan => JSNum.nan
  | JSNum.posInf => JSNum.posInf
  | JSNum.negInf => JSNum.nan
  | JSNum.num x => if x < 0 then JSNum.nan else JSNum.num (Real.sqrt x)

/-- `cosineSimilarity` over the special-value-aware number model,
mirroring server.js lines 236-241 operation by operation (`reduce`
with initial value `0` is a left fold). -/
noncomputable def cosineSimilarityJS (vecA vecB : List JSNum) : JSNum :=
  let dotProduct :=
    (List.zipWith JSNum.mul vecA vecB).foldl JSNum.add (JSNum.num 0)
  let magA :=
    JSNum.sqrt ((vecA.map fun a => JSNum.mul a a).foldl JSNum.add (JSNum.num 0))
  let magB :=
    JSNum.sqrt ((vecB.map fun b => JSNum.mul b b).foldl JSNum.add (JSNum.num 0))
  JSNum.div dotProduct (JSNum.mul magA magB)

theorem JSNum.add_num (x y : ℝ) :
    JSNum.add (JSNum.num x) (JSNum.num y) = JSNum.num (x + y) := rfl

theorem JSNum.mul_num (x y : ℝ) :
    JSNum.mul (JSNum.num x) (JSNum.num y) = JSNum.num (x * y) := rfl

theorem zipWith_mul_map_num (a b : List ℝ) :
    List.zipWith JSNum.mul (a.map JSNum.num) (b.map JSNum.num) =
      (List.zipWith (fun x y => x * y) a b).map JSNum.num := by
  induction a generalizing b with
  | nil => simp
  | cons x xs ih =>
    cases b with
    | nil => simp
    | cons y ys => simp [JSNum.mul_num, ih]

theorem map_mul_self_map_num (a : List ℝ) :
    (a.map JSNum.num).map (fun v => JSNum.mul v v) =
      (a.map fun x => x * x).map JSNum.num := by
  induction a with
  | nil => rfl
  | cons x xs ih => simp [JSNum.mul_num, ih]

theorem foldl_add_map_num (l : List ℝ) (x : ℝ) :
    (l.map JSNum.num).foldl JSNum.add (JSNum.num x) =
      JSNum.num (l.foldl (fun sum y => sum + y) x) := by
  induction l generalizing x with
  | nil => rfl
  | cons y ys ih => simp [List.foldl_cons, JSNum.add_num, ih]

/-- Dot product of finite vectors in the JS model is the real dot
product. -/
theorem dotJS_map_num (a b : List ℝ) :
    (List.zipWith JSNum.mul (a.map JSNum.num) (b.map JSNum.num)).foldl
        JSNum.add (JSNum.num 0) =
      JSNum.num (dotList a b) := by
  rw [zipWith_mul_map_num, foldl_add_map_num]
  rfl

/-- Sum of squares of a finite vector in the JS model is the real sum
of squares. -/
theorem sumSquaresJS_map_num (a : List ℝ) :
    ((a.map JSNum.num).map (fun v => JSNum.mul v v)).foldl
        JSNum.add (JSNum.num 0) =
      JSNum.num (sumSquares a) := by
  rw [map_mul_self_map_num, foldl_add_map_num]
  rfl

theorem sumSquares_eq_zero_iff (l : List ℝ) :
    sumSquares l = 0 ↔ ∀ x ∈ l, x = 0 := by
  rw [sumSquares_eq_sum]
  induction l with
  | nil => simp
  | cons a t ih =>
    have ht : 0 ≤ (t.map fun x => x * x).sum := by
      apply List.sum_nonneg
      intro x hx
      obtain ⟨y, _, rfl⟩ := List.mem_map.mp hx
      exact mul_self_nonneg y
    simp only [List.map_cons, List.sum_cons, List.mem_cons]
    constructor
    · intro h
      have ha : a * a = 0 := le_antisymm (by nlinarith) (by nlinarith [mul_self_nonneg a])
      have hsum : (t.map fun x => x * x).sum = 0 := by nlinarith [mul_self_nonneg a]
      intro x hx
      rcases hx with rfl | hx
      · exact mul_self_eq_zero.mp ha
      · exact ih.mp hsum x hx
    · intro h
      have ha : a = 0 := h a (Or.inl rfl)
      have ht0 : ∀ x ∈ t, x = 0 := fun x hx => h x (Or.inr hx)
      simp [ha, ih.mpr ht0]

theorem zipWith_mul_sum_zero_left :
    ∀ (a b : List ℝ), (∀ x ∈ a, x = 0) →
      (List.zipWith (fun x y => x * y) a b).sum = 0 := by
  intro a
  induction a with
  | nil => intro b _; simp
  | cons x xs ih =>
    intro b h
    cases b with
    | nil => simp
    | cons y ys =>
      have hx : x = 0 := h x (List.mem_cons_self x xs)
      have hxs : ∀ z ∈ xs, z = 0 := fun z hz => h z (List.mem_cons_of_mem x hz)
      simp [hx, ih ys hxs]

theorem zipWith_mul_sum_zero_right :
    ∀ (a b : List ℝ), (∀ y ∈ b, y = 0) →
      (List.zipWith (fun x y => x * y) a b).sum = 0 := by
  intro a
  induction a with
  | nil => intro b _; simp
  | cons x xs ih =>
    intro b h
    cases b with
    | nil => simp
    | cons y ys =>
      have hy : y = 0 := h y (List.mem_cons_self y ys)
      have hys : ∀ z ∈ ys, z = 0 := fun z hz => h z (List.mem_cons_of_mem y hz)
      simp [hy, ih ys hys]

theorem dotList_eq_zero_left (a b : List ℝ) (h : sumSquares a = 0) :
    dotList a b = 0 := by
  rw [dotList_eq_sum]
  exact zipWith_mul_sum_zero_left a b ((sumSquares_eq_zero_iff a).mp h)

theorem dotList_eq_zero_right (a b : List ℝ) (h : sumSquares b = 0) :
    dotList a b = 0 := by
  rw [dotList_eq_sum]
  exact zipWith_mul_sum_zero_right a b ((sumSquares_eq_zero_iff b).mp h)

/-- Cauchy-Schwarz for the truncating list dot product. -/
theorem zipWith_mul_sum_sq_le :
    ∀ (a b : List ℝ),
      ((List.zipWith (fun x y => x * y) a b).sum) ^ 2 ≤
        ((a.map fun x => x * x).sum) * ((b.map fun x => x * x).sum) := by
  intro a
  induction a with
  | nil => intro b; simp
  | cons x xs ih =>
    intro b
    cases b with
    | nil =>
      simp
    | cons y ys =>
      have hSA : 0 ≤ (xs.map fun x => x * x).sum := by
        apply List.sum_nonneg
        intro z hz
        obtain ⟨w, _, rfl⟩ := List.mem_map.mp hz
        exact mul_self_nonneg w
      have hSB : 0 ≤ (ys.map fun x => x * x).sum := by
        apply List.sum_nonneg
        intro z hz
        obtain ⟨w, _, rfl⟩ := List.mem_map.mp hz
        exact mul_self_nonneg w
      have hIH := ih ys
      simp only [List.zipWith_cons_cons, List.sum_cons, List.map_cons]
      rcases eq_or_lt_of_le hSB with hSB0 | hSBpos
      · have hD : (List.zipWith (fun x y => x * y) xs ys).sum = 0 := by
          have := hIH
          rw [← hSB0] at this
          nlinarith [sq_nonneg ((List.zipWith (fun x y => x * y) xs ys).sum)]
        rw [hD, ← hSB0]
        nlinarith [mul_nonneg hSA (mul_self_nonneg y)]
      · nlinarith [hIH, hSA, hSB,
          sq_nonneg (x * (ys.map fun x => x * x).sum -
            y * (List.zipWith (fun x y => x * y) xs ys).sum),
          mul_nonneg (sub_nonneg.mpr hIH)
            (add_nonneg (mul_self_nonneg y) hSB)]

theorem dotList_sq_le (a b : List ℝ) :
    dotList a b ^ 2 ≤ sumSquares a * sumSquares b := by
  rw [dotList_eq_sum, sumSquares_eq_sum, sumSquares_eq_sum]
  exact zipWith_mul_sum_sq_le a b

theorem cosineSimilarity_range (a b : List ℝ)
    (ha : sumSquares a ≠ 0) (hb : sumSquares b ≠ 0) :
    -1 ≤ cosineSimilarity a b ∧ cosineSimilarity a b ≤ 1 := by
  have hA : 0 < sumSquares a := (sumSquares_nonneg a).lt_of_ne (Ne.symm ha)
  have hB : 0 < sumSquares b := (sumSquares_nonneg b).lt_of_ne (Ne.symm hb)
  have hden : 0 < Real.sqrt (sumSquares a) * Real.sqrt (sumSquares b) :=
    mul_pos (Real.sqrt_pos.mpr hA) (Real.sqrt_pos.mpr hB)
  have habs : |dotList a b| ≤
      Real.sqrt (sumSquares a) * Real.sqrt (sumSquares b) := by
    rw [← Real.sqrt_sq_eq_abs, ← Real.sqrt_mul (sumSquares_nonneg a)]
    exact Real.sqrt_le_sqrt (dotList_sq_le a b)
  have h1 : |cosineSimilarity a b| ≤ 1 := by
    rw [cosineSimilarity_def, abs_div, abs_of_pos hden]
    exact (div_le_one hden).mpr habs
  exact abs_le.mp h1

theorem cosineSimilarityJS_def (vecA vecB : List JSNum) :
    cosineSimilarityJS vecA vecB =
      JSNum.div
        ((List.zipWith JSNum.mul vecA vecB).foldl JSNum.add (JSNum.num 0))
        (JSNum.mul
          (JSNum.sqrt ((vecA.map fun a => JSNum.mul a a).foldl JSNum.add
            (JSNum.num 0)))
          (JSNum.sqrt ((vecB.map fun b => JSNum.mul b b).foldl JSNum.add
            (JSNum.num 0)))) := rfl

theorem JSNum.sqrt_num_of_nonneg (s : ℝ) (hs : 0 ≤ s) :
    JSNum.sqrt (JSNum.num s) = JSNum.num (Real.sqrt s) := by
  simp [JSNum.sqrt, not_lt.mpr hs]

/-- On finite vectors with nonzero magnitudes the special-value model
agrees with the real-valued idealisation. -/
theorem cosineSimilarityJS_map_num (a b : List ℝ)
    (ha : sumSquares a ≠ 0) (hb : sumSquares b ≠ 0) :
    cosineSimilarityJS (a.map JSNum.num) (b.map JSNum.num) =
      JSNum.num (cosineSimilarity a b) := by
  rw [cosineSimilarityJS_def, dotJS_map_num, sumSquaresJS_map_num,
    sumSquaresJS_map_num,
    JSNum.sqrt_num_of_nonneg _ (sumSquares_nonneg a),
    JSNum.sqrt_num_of_nonneg _ (sumSquares_nonneg b), JSNum.mul_num]
  have hA : 0 < sumSquares a := (sumSquares_nonneg a).lt_of_ne (Ne.symm ha)
  have hB : 0 < sumSquares b := (sumSquares_nonneg b).lt_of_ne (Ne.symm hb)
  have hden : Real.sqrt (sumSquares a) * Real.sqrt (sumSquares b) ≠ 0 :=
    ne_of_gt (mul_pos (Real.sqrt_pos.mpr hA) (Real.sqrt_pos.mpr hB))
  simp [JSNum.div, hden, cosineSimilarity_def]

/-- On finite vectors where either magnitude vanishes the special-value
model produces NaN, from the 0/0 division. -/
theorem cosineSimilarityJS_nan (a b : List ℝ)
    (h : sumSquares a = 0 ∨ sumSquares b = 0) :
    cosineSimilarityJS (a.map JSNum.num) (b.map JSNum.num) = JSNum.nan := by
  rw [cosineSimilarityJS_def, dotJS_map_num, sumSquaresJS_map_num,
    sumSquaresJS_map_num,
    JSNum.sqrt_num_of_nonneg _ (sumSquares_nonneg a),
    JSNum.sqrt_num_of_nonneg _ (sumSquares_nonneg b), JSNum.mul_num]
  have hdot : dotList a b = 0 := by
    rcases h with h | h
    · exact dotList_eq_zero_left a b h
    · exact dotList_eq_zero_right a b h
  have hzero : Real.sqrt (sumSquares a) * Real.sqrt (sumSquares b) = 0 := by
    rcases h with h | h <;> simp [h]
  rw [hdot, hzero]
  simp [JSNum.div]

/-- C8: for equal-length numeric vectors the cosine similarity is the
quotient of the dot product by the product of the magnitudes; with
both magnitudes nonzero the value (also reached by the special-value
model) lies in the interval from -1 to 1; with either magnitude zero
the computation produces NaN. -/
theorem claim_cosine_quotient_range_nan (a b : List ℝ)
    (_hlen : a.length = b.length) :
    cosineSimilarity a b =
        dotList a b /
          (Real.sqrt (sumSquares a) * Real.sqrt (sumSquares b)) ∧
      (sumSquares a ≠ 0 → sumSquares b ≠ 0 →
        cosineSimilarityJS (a.map JSNum.num) (b.map JSNum.num) =
            JSNum.num (cosineSimilarity a b) ∧
          -1 ≤ cosineSimilarity a b ∧ cosineSimilarity a b ≤ 1) ∧
      ((sumSquares a = 0 ∨ sumSquares b = 0) →
        cosineSimilarityJS (a.map JSNum.num) (b.map JSNum.num) =
          JSNum.nan) :=
  ⟨cosineSimilarity_def a b,
    fun ha hb => ⟨cosineSimilarityJS_map_num a b ha hb,
      cosineSimilarity_range a b ha hb⟩,
    cosineSimilarityJS_nan a b⟩

/-- Witness for C8 at the equal-length vectors `[1]` and `[2]`. -/
theorem claim_cosine_quotient_range_nan_witness :
    ([(1 : ℝ)].length = [(2 : ℝ)].length) ∧
      (cosineSimilarity [(1 : ℝ)] [(2 : ℝ)] =
          dotList [(1 : ℝ)] [(2 : ℝ)] /
            (Real.sqrt (sumSquares [(1 : ℝ)]) *
              Real.sqrt (sumSquares [(2 : ℝ)])) ∧
        (sumSquares [(1 : ℝ)] ≠ 0 → sumSquares [(2 : ℝ)] ≠ 0 →
          cosineSimilarityJS ([(1 : ℝ)].map JSNum.num)
              ([(2 : ℝ)].map JSNum.num) =
              JSNum.num (cosineSimilarity [(1 : ℝ)] [(2 : ℝ)]) ∧
            -1 ≤ cosineSimilarity [(1 : ℝ)] [(2 : ℝ)] ∧
              cosineSimilarity [(1 : ℝ)] [(2 : ℝ)] ≤ 1) ∧
        ((sumSquares [(1 : ℝ)] = 0 ∨ sumSquares [(2 : ℝ)] = 0) →
          cosineSimilarityJS ([(1 : ℝ)].map JSNum.num)
            ([(2 : ℝ)].map JSNum.num) = JSNum.nan)) :=
  ⟨rfl, claim_cosine_quotient_range_nan [(1 : ℝ)] [(2 : ℝ)] rfl⟩

/-! ### Embedding requests and their input-type discriminator

Three `cohere.embed` call sites exist in the repository.  The batch
call of `embedDocumentsInBatches` (lines 85-89 and 302-306) embeds the
document corpus; the `/generate` handler embeds the user prompt, with
`input_type: "search_document"` in the first server variant (lines
158-162) and `input_type: "search_query"` in the updated variant
(lines 377-381, whose comment marks the change to `search_query` for
query embedding as the intended behaviour). -/

structure EmbedRequest where
  texts : List String
  model : String
  inputType : String

def documentText (doc : Document) : String :=
  doc.data.title ++ ". " ++ doc.data.snippet

def batchEmbedRequest (batch : List Document) : EmbedRequest :=
  { texts := batch.map documentText
    model := "embed-multilingual-v3.0"
    inputType := "search_document" }

def generateQueryEmbedRequest (prompt : String) : EmbedRequest :=
  { texts := [prompt]
    model := "embed-multilingual-v3.0"
    inputType := "search_query" }

def generateQueryEmbedRequestV1 (prompt : String) : EmbedRequest :=
  { texts := [prompt]
    model := "embed-multilingual-v3.0"
    inputType := "search_document" }

/-- C9: corpus-embedding requests carry the document input type and the
updated handler embeds the prompt with the query input type, but the
first handler variant embeds the user prompt with the document input
type, so not every query-embedding request carries the query
discriminator. -/
theorem claim_embed_input_type_discriminator :
    (∀ batch, (batchEmbedRequest batch).inputType = "search_document") ∧
      (∀ prompt, (generateQueryEmbedRequest prompt).inputType =
        "search_query") ∧
      (generateQueryEmbedRequestV1 "hello").inputType = "search_document" ∧
      (generateQueryEmbedRequestV1 "hello").inputType ≠ "search_query" := by
  refine ⟨fun _ => rfl, fun _ => rfl, rfl, ?_⟩
  decide

end BookwormServer
